import Mathlib

/-!
Shallow embedding of the computational core of `hydrosat_project/assets.py`:
the synthetic raster generators (`generate_ndvi_raster`,
`generate_soil_moisture_raster`, `generate_temperature_raster`), the
`zonal_statistics` engine and the `generate_random_field_polygons` field
generator.

Modelling conventions:
* Floating-point numbers are embedded as exact rationals (`ℚ`).
* Python `int(q)` (truncation toward zero) is embedded as `pyInt`.
* Transcendental functions (`np.sin`, `np.cos`, `math.pi`, the square root
  inside `np.std`) are embedded as uninterpreted oracle functions passed as
  parameters; nothing proved below depends on their values beyond explicitly
  stated hypotheses (such as `cos² + sin² = 1` for a rotation angle).
* Random draws (`np.random.normal`, `random.uniform`, `random.randint`,
  `random.choice`) are embedded as oracle streams supplying the realized
  values; distributional facts (e.g. `random.uniform(a,b) ∈ [a,b]`) become
  hypotheses of the theorems that need them.
* A date string that the Python code parses with `strptime` is embedded by
  the quantity the code actually consumes: the day-of-year `tm_yday` for the
  synthesizers, and the day offset from 2024-01-01 for planting dates.
* Python-level exceptions (`ZeroDivisionError` on float division by zero,
  `ValueError` on negative numpy dimensions, `IndexError` on out-of-bounds
  access) are embedded as `Except`/`Option` error results.
-/

/-- Python `int(...)` applied to a float: truncation toward zero. -/
def pyInt (q : ℚ) : ℤ := if q < 0 then ⌈q⌉ else ⌊q⌋

/-- Embedding of `np.clip(v, 0, 1)`. -/
def clip01 (x : ℚ) : ℚ := min 1 (max 0 x)

/-- Bounding box, as produced by `bbox.bounds` in shapely order
`(minx, miny, maxx, maxy)`. -/
structure BBox where
  minx : ℚ
  miny : ℚ
  maxx : ℚ
  maxy : ℚ

/-- Geotransform tuple `(x_origin, pixel_width, 0, y_origin, 0, rowStep)`;
the synthesizers store `rowStep = -resolution`.  The two fixed zero entries
are omitted. -/
structure GeoTransform where
  xOrigin : ℚ
  pixelWidth : ℚ
  yOrigin : ℚ
  rowStep : ℚ

/-- A 2D raster: `height × width` grid of rational samples.  `data i j` is
the value at row `i`, column `j`. -/
structure Raster where
  height : ℕ
  width : ℕ
  data : ℕ → ℕ → ℚ

/-- Raster indexing `raster[y, x]` with signed indices; `none` models the
`IndexError` branch.  (The negative-index wrap-around of Python indexing is
irrelevant here: `zonal_statistics` only ever produces indices clamped to be
nonnegative, which theorem `zonal_scan_in_bounds` makes precise.) -/
def Raster.get? (r : Raster) (y x : ℤ) : Option ℚ :=
  if 0 ≤ y ∧ y < (r.height : ℤ) ∧ 0 ≤ x ∧ x < (r.width : ℤ) then
    some (r.data y.toNat x.toNat)
  else
    none

/-- A polygon, abstracted by everything `zonal_statistics` uses of the
shapely object: its `.bounds` tuple and its `.contains(Point(x, y))`
predicate. -/
structure Polygon where
  minx : ℚ
  miny : ℚ
  maxx : ℚ
  maxy : ℚ
  contains : ℚ → ℚ → Bool

/-- Embedding of `shapely.geometry.box(minx, miny, maxx, maxy)` together
with shapely's `contains` convention for it: a point is contained iff it
lies in the open interior of the rectangle. -/
def rectPolygon (minx miny maxx maxy : ℚ) : Polygon where
  minx := minx
  miny := miny
  maxx := maxx
  maxy := maxy
  contains := fun x y => decide (minx < x ∧ x < maxx ∧ miny < y ∧ y < maxy)

/-- Oracle for the transcendental constants/functions used by the
synthesizers (`np.sin`, `np.cos`, `np.pi`). -/
structure TrigOracle where
  sin : ℚ → ℚ
  cos : ℚ → ℚ
  pi : ℚ

/-- Python exceptions raised by the synthesizers: `ZeroDivisionError` from
dividing by a zero resolution, `ValueError` from a negative numpy
dimension. -/
inductive GenError where
  | zeroDivision : GenError
  | negativeDimension : GenError
deriving DecidableEq

/-- Embedding of `generate_ndvi_raster(bbox, date, resolution)`.  `noise i j`
is the realized unit-normal draw for cell `(i, j)`; the code scales it by the
per-branch `noise_level`.  `doy` is `date_obj.timetuple().tm_yday`. -/
def generate_ndvi_raster (trig : TrigOracle) (noise : ℕ → ℕ → ℚ)
    (bbox : BBox) (doy : ℤ) (resolution : ℚ) :
    Except GenError (Raster × GeoTransform) :=
  if resolution = 0 then .error .zeroDivision
  else if pyInt ((bbox.maxx - bbox.minx) / resolution) < 0 ∨
      pyInt ((bbox.maxy - bbox.miny) / resolution) < 0 then
    .error .negativeDimension
  else
  let width := (pyInt ((bbox.maxx - bbox.minx) / resolution)).toNat
  let height := (pyInt ((bbox.maxy - bbox.miny) / resolution)).toNat
  let seasonalFactor := trig.sin (((doy : ℚ) - 80) * 2 * trig.pi / 365)
  let seasonalBase := 1/5 + 3/10 * max 0 seasonalFactor
  .ok (⟨height, width, fun i j =>
      let xRel : ℚ := (j : ℚ) / (width : ℚ)
      let yRel : ℚ := (i : ℚ) / (height : ℚ)
      if (xRel - 1/2)^2 + (yRel - 1/2)^2 < 1/10 then
        clip01 (seasonalBase * (4/5) + (1/20) * noise i j)
      else if xRel < 3/10 ∧ yRel < 3/10 then
        clip01 (seasonalBase * (1/5) + (1/20) * noise i j)
      else
        clip01 (seasonalBase *
          (1/2 + 1/5 * trig.sin (10 * xRel) * trig.cos (8 * yRel)) +
          (1/10) * noise i j)⟩,
    ⟨bbox.minx, resolution, bbox.maxy, -resolution⟩)

/-- Embedding of `generate_soil_moisture_raster(bbox, date, ndvi_raster,
resolution)`.  The Python function reads only `ndvi_raster.shape` and the
date; `bbox` and `resolution` are never used, so they are omitted.  It
performs no validation and cannot raise. -/
def generate_soil_moisture_raster (trig : TrigOracle) (noise : ℕ → ℕ → ℚ)
    (doy : ℤ) (ndvi_raster : Raster) : Raster :=
  let seasonalFactor := trig.cos (((doy : ℚ) - 30) * 2 * trig.pi / 365)
  let seasonalBase := 3/10 + 1/5 * seasonalFactor
  ⟨ndvi_raster.height, ndvi_raster.width, fun i j =>
    clip01 (seasonalBase * (1/2 + 1/2 * ndvi_raster.data i j) +
      (2/25) * noise i j)⟩

/-- Embedding of `generate_temperature_raster(bbox, date, resolution)`. -/
def generate_temperature_raster (trig : TrigOracle) (noise : ℕ → ℕ → ℚ)
    (bbox : BBox) (doy : ℤ) (resolution : ℚ) : Except GenError Raster :=
  if resolution = 0 then .error .zeroDivision
  else if pyInt ((bbox.maxx - bbox.minx) / resolution) < 0 ∨
      pyInt ((bbox.maxy - bbox.miny) / resolution) < 0 then
    .error .negativeDimension
  else
  let width := (pyInt ((bbox.maxx - bbox.minx) / resolution)).toNat
  let height := (pyInt ((bbox.maxy - bbox.miny) / resolution)).toNat
  let seasonalFactor := trig.sin (((doy : ℚ) - 80) * 2 * trig.pi / 365)
  let seasonalBase := 15 + 10 * seasonalFactor
  .ok ⟨height, width, fun i j =>
    let xRel : ℚ := (j : ℚ) / (width : ℚ)
    let yRel : ℚ := (i : ℚ) / (height : ℚ)
    seasonalBase + (-5) * ((xRel - 7/10)^2 + (yRel - 3/10)^2) + noise i j⟩

/-- Python `range(lo, hi + 1)` over signed integers: the list
`[lo, lo+1, …, hi]`, empty when `hi < lo`. -/
def intRange (lo hi : ℤ) : List ℤ :=
  (List.range (hi + 1 - lo).toNat).map (fun k : ℕ => lo + (k : ℤ))

/-- Real-world x coordinate of a pixel center:
`x_origin + (x + 0.5) * pixel_width`. -/
def pixelCenterX (g : GeoTransform) (x : ℤ) : ℚ :=
  g.xOrigin + ((x : ℚ) + 1/2) * g.pixelWidth

/-- Real-world y coordinate of a pixel center:
`y_origin - (y + 0.5) * pixel_height` with `pixel_height = abs(rowStep)`. -/
def pixelCenterY (g : GeoTransform) (y : ℤ) : ℚ :=
  g.yOrigin - ((y : ℚ) + 1/2) * |g.rowStep|

/-- Clamped pixel-window bound `x_min_px = max(0, int((minx - x_origin) /
pixel_width))`. -/
def xMinPx (g : GeoTransform) (p : Polygon) : ℤ :=
  max 0 (pyInt ((p.minx - g.xOrigin) / g.pixelWidth))

/-- Clamped pixel-window bound `x_max_px = min(width - 1, int((maxx -
x_origin) / pixel_width))`. -/
def xMaxPx (r : Raster) (g : GeoTransform) (p : Polygon) : ℤ :=
  min ((r.width : ℤ) - 1) (pyInt ((p.maxx - g.xOrigin) / g.pixelWidth))

/-- Clamped pixel-window bound `y_min_px = max(0, int((y_origin - maxy) /
pixel_height))`. -/
def yMinPx (g : GeoTransform) (p : Polygon) : ℤ :=
  max 0 (pyInt ((g.yOrigin - p.maxy) / |g.rowStep|))

/-- Clamped pixel-window bound `y_max_px = min(height - 1, int((y_origin -
miny) / pixel_height))`. -/
def yMaxPx (r : Raster) (g : GeoTransform) (p : Polygon) : ℤ :=
  min ((r.height : ℤ) - 1) (pyInt ((g.yOrigin - p.miny) / |g.rowStep|))

/-- The pixel indices `(y, x)` visited by the nested loops
`for y in range(y_min_px, y_max_px + 1): for x in range(x_min_px,
x_max_px + 1)` of `zonal_statistics`, in scan order. -/
def scannedPixels (r : Raster) (g : GeoTransform) (p : Polygon) :
    List (ℤ × ℤ) :=
  (intRange (yMinPx g p) (yMaxPx r g p)).flatMap (fun y =>
    (intRange (xMinPx g p) (xMaxPx r g p)).map (fun x => (y, x)))

/-- One iteration of the pixel loop body: test the pixel center for
containment and, when contained, append `raster[y, x]` (propagating the
`IndexError` branch as `none`). -/
def collectStep (r : Raster) (g : GeoTransform) (p : Polygon)
    (yx : ℤ × ℤ) (acc : Option (List ℚ)) : Option (List ℚ) :=
  match acc with
  | none => none
  | some vs =>
    if p.contains (pixelCenterX g yx.2) (pixelCenterY g yx.1) then
      match r.get? yx.1 yx.2 with
      | none => none
      | some v => some (v :: vs)
    else
      some vs

/-- The `values` list accumulated by `zonal_statistics`, in scan order;
`none` models an `IndexError` escaping the loop. -/
def collectValues (r : Raster) (g : GeoTransform) (p : Polygon) :
    Option (List ℚ) :=
  (scannedPixels r g p).foldr (collectStep r g p) (some [])

/-- Result record of `zonal_statistics`: the dictionary with keys
`min`, `max`, `mean`, `std`, `count`; `none` is the `None` sentinel. -/
structure ZonalStats where
  min : Option ℚ
  max : Option ℚ
  mean : Option ℚ
  std : Option ℚ
  count : ℕ
deriving DecidableEq

/-- The all-null statistics record returned when no pixel center falls
inside the polygon. -/
def nullStats : ZonalStats := ⟨none, none, none, none, 0⟩

/-- Statistics of a collected value list: `np.min`, `np.max`, `np.mean` and
the population standard deviation `np.std` (embedded through the
uninterpreted square-root oracle `sqrtO` applied to the variance). -/
def statsOfValues (sqrtO : ℚ → ℚ) (values : List ℚ) : ZonalStats :=
  match values with
  | [] => nullStats
  | v :: vs =>
    let n : ℚ := ((vs.length + 1 : ℕ) : ℚ)
    let mean := (v :: vs).sum / n
    { min := some (vs.foldl min v)
      max := some (vs.foldl max v)
      mean := some mean
      std := some (sqrtO (((v :: vs).map (fun x => (x - mean)^2)).sum / n))
      count := vs.length + 1 }

/-- Embedding of `zonal_statistics(raster, geotransform, polygon)`.
`none` models a raised Python exception: `ZeroDivisionError` when
`pixel_width` or `pixel_height` is zero (the divisions at the pixel-window
computation), or an `IndexError` from the loop body. -/
def zonal_statistics (sqrtO : ℚ → ℚ) (r : Raster) (g : GeoTransform)
    (p : Polygon) : Option ZonalStats :=
  if g.pixelWidth = 0 ∨ g.rowStep = 0 then none
  else (collectValues r g p).map (statsOfValues sqrtO)

/-- Sum of all cell values of a raster (used to state the spec's
"arithmetic mean of all cell values"). -/
def rasterSum (r : Raster) : ℚ :=
  ((List.range r.height).map (fun i =>
    ((List.range r.width).map (fun j => r.data i j)).sum)).sum

/-- Realized random draws consumed for one field by
`generate_random_field_polygons`: the two `random.uniform(0.2, 0.8)` center
fractions, the `random.uniform(min_size, max_size)` size fraction, the
cosine and sine of the `random.uniform(0, 90)` rotation angle (the code
only ever uses the angle through `np.cos`/`np.sin` of its radians), the
`random.randint(0, date_range)` planting-day offset and the index of the
`random.choice` crop pick. -/
structure FieldDraw where
  cxFrac : ℚ
  cyFrac : ℚ
  sizeFrac : ℚ
  cosA : ℚ
  sinA : ℚ
  plantingDay : ℕ
  cropIdx : ℕ

/-- The fixed crop-type vocabulary. -/
def cropTypes : List String :=
  ["Corn", "Wheat", "Soybeans", "Barley", "Potatoes", "Alfalfa", "Rice"]

/-- The number of days from 2024-01-01 to 2024-04-30, i.e. the value of
`(end_date - start_date).days` computed by the generator; a planting day
offset `d ≤ 120` corresponds to a date between 2024-01-01 and 2024-04-30
inclusive. -/
def dateRangeDays : ℕ := 120

/-- One field record produced by the generator.  `plantingDay` is the day
offset from 2024-01-01 which the Python code formats as the
`planting_date` string; `corners` is the vertex list handed to
`Polygon(corners)`. -/
structure FieldRec where
  id : String
  name : String
  cropType : String
  plantingDay : ℕ
  corners : List (ℚ × ℚ)

/-- The four corner offsets `(dx, dy)` iterated by the generator. -/
def cornerOffsets : List (ℚ × ℚ) :=
  [(-(1/2), -(1/2)), (1/2, -(1/2)), (1/2, 1/2), (-(1/2), 1/2)]

/-- One rotated corner: the point `(center + R(angle) · (dx·fieldWidth,
dy·fieldHeight))` computed by the generator's corner loop. -/
def fieldCorner (bbox : BBox) (d : FieldDraw) (off : ℚ × ℚ) : ℚ × ℚ :=
  let w := bbox.maxx - bbox.minx
  let h := bbox.maxy - bbox.miny
  let cx := bbox.minx + d.cxFrac * w
  let cy := bbox.miny + d.cyFrac * h
  let fw := d.sizeFrac * w
  let fh := d.sizeFrac * h
  (cx + off.1 * fw * d.cosA - off.2 * fh * d.sinA,
   cy + off.1 * fw * d.sinA + off.2 * fh * d.cosA)

/-- The field record built for loop index `i` (0-based; identifiers use
`i + 1`). -/
def mkField (bbox : BBox) (draws : ℕ → FieldDraw) (i : ℕ) : FieldRec :=
  let d := draws i
  let crop := cropTypes.getD (d.cropIdx % cropTypes.length) "Corn"
  { id := "field" ++ toString (i + 1)
    name := crop ++ " Field " ++ toString (i + 1)
    cropType := crop
    plantingDay := d.plantingDay
    corners := cornerOffsets.map (fieldCorner bbox d) }

/-- Embedding of `generate_random_field_polygons(bbox, num_fields,
min_size, max_size)`.  The size bounds only parameterize the random draw
`random.uniform(min_size, max_size)`, which the oracle stream realizes;
they therefore appear in theorems as hypotheses on `draws`. -/
def generate_random_field_polygons (draws : ℕ → FieldDraw) (bbox : BBox)
    (numFields : ℕ) (minSize maxSize : ℚ) : List FieldRec :=
  (List.range numFields).map (mkField bbox draws)

/-- Height of the raster inside a successful `generate_ndvi_raster` result. -/
def ndviHeight (e : Except GenError (Raster × GeoTransform)) : Option ℕ :=
  e.toOption.map (fun rg => rg.1.height)

/-- Width of the raster inside a successful `generate_ndvi_raster` result. -/
def ndviWidth (e : Except GenError (Raster × GeoTransform)) : Option ℕ :=
  e.toOption.map (fun rg => rg.1.width)

/-- Geotransform inside a successful `generate_ndvi_raster` result. -/
def ndviGeo (e : Except GenError (Raster × GeoTransform)) :
    Option GeoTransform :=
  e.toOption.map (fun rg => rg.2)

/-- Cell value inside a successful `generate_ndvi_raster` result. -/
def ndviData (e : Except GenError (Raster × GeoTransform)) (i j : ℕ) :
    Option ℚ :=
  e.toOption.map (fun rg => rg.1.data i j)

/-- Zonal statistics of the raster inside a successful
`generate_ndvi_raster` result, against its own geotransform. -/
def ndviZonal (sqrtO : ℚ → ℚ) (e : Except GenError (Raster × GeoTransform))
    (p : Polygon) : Option ZonalStats :=
  match e with
  | .error _ => none
  | .ok (r, g) => zonal_statistics sqrtO r g p

/-- Height of a successful `generate_temperature_raster` result. -/
def tempHeight (e : Except GenError Raster) : Option ℕ :=
  e.toOption.map Raster.height

/-- Width of a successful `generate_temperature_raster` result. -/
def tempWidth (e : Except GenError Raster) : Option ℕ :=
  e.toOption.map Raster.width

/-- All cells of a raster lie in the unit interval. -/
def cellsInUnit (r : Raster) : Prop :=
  ∀ i j, 0 ≤ r.data i j ∧ r.data i j ≤ 1

/-- Trigonometric oracle that realizes every draw as zero; used to
instantiate universally quantified oracles in concrete evaluations. -/
def zeroTrig : TrigOracle := ⟨fun _ => 0, fun _ => 0, 0⟩

/-- Noise stream that realizes every draw as zero. -/
def zeroNoise : ℕ → ℕ → ℚ := fun _ _ => 0

/-- Square-root oracle realized as the zero function (its value is never
relevant to the statements that use it). -/
def zeroSqrt : ℚ → ℚ := fun _ => 0

/-- Witness fixture: a 1×1 raster of zeros. -/
def w1r : Raster := ⟨1, 1, fun _ _ => 0⟩

/-- Witness fixture: the geotransform `(0, 1, 0, 1, 0, -1)`. -/
def w1g : GeoTransform := ⟨0, 1, 1, -1⟩

/-- Witness fixture: the unit-square polygon. -/
def w1p : Polygon := rectPolygon 0 0 1 1

/-- Witness fixture: a rectangle far outside the unit square. -/
def w5p : Polygon := rectPolygon 5 5 6 6

/-- Fixture for the concrete 2x2 scenario: bbox `(0, 0, 1, 1)`. -/
def bbox6 : BBox := ⟨0, 0, 1, 1⟩

/-- Fixture: the geotransform `(0, 0.5, 0, 1, 0, -0.5)` of the 2x2
scenario. -/
def g6 : GeoTransform := ⟨0, 1/2, 1, -(1/2)⟩

/-- Fixture: a small rectangle containing the top-left cell center
`(0.25, 0.75)` of the 2x2 scenario and no other cell center. -/
def p6 : Polygon := rectPolygon (1/5) (7/10) (3/10) (4/5)

/-- The geotransform the synthesizers attach to their rasters:
`(minx, res, 0, maxy, 0, -res)`. -/
def synthGeo (minx maxy res : ℚ) : GeoTransform := ⟨minx, res, maxy, -res⟩

/-- A rectangle polygon exactly covering the full extent of a raster whose
geotransform is `synthGeo minx maxy res`. -/
def fullExtentPolygon (r : Raster) (minx maxy res : ℚ) : Polygon :=
  rectPolygon minx (maxy - (r.height : ℚ) * res)
    (minx + (r.width : ℚ) * res) maxy

/-- Witness fixture: one concrete realization of the per-field random
draws (centered field, size fraction 1/10, no rotation, planting on
2024-01-01, first crop). -/
def cdraw : FieldDraw := ⟨1/2, 1/2, 1/10, 1, 0, 0, 0⟩

/-- Witness fixture: the constant draw stream. -/
def cdraws : ℕ → FieldDraw := fun _ => cdraw

theorem pyInt_of_nonneg {q : ℚ} (h : 0 ≤ q) : pyInt q = ⌊q⌋ :=
  if_neg (not_lt.2 h)

theorem pyInt_cast_eq {q : ℚ} {z : ℤ} (h : q = (z : ℚ)) : pyInt q = z := by
  subst h
  unfold pyInt
  split <;> simp

theorem clip01_nonneg (x : ℚ) : 0 ≤ clip01 x :=
  le_min zero_le_one (le_max_left 0 x)

theorem clip01_le_one (x : ℚ) : clip01 x ≤ 1 :=
  min_le_left 1 (max 0 x)

theorem clip01_mem (x : ℚ) : 0 ≤ clip01 x ∧ clip01 x ≤ 1 :=
  ⟨clip01_nonneg x, clip01_le_one x⟩

/-- C4: every cell of every raster returned by `generate_ndvi_raster` and by
`generate_soil_moisture_raster` lies within `[0, 1]`, for every bounding
box, date, resolution, and every realization of the trigonometric values
and the Gaussian noise. -/
theorem ndvi_soil_cells_in_unit_interval :
    (∀ (trig : TrigOracle) (noise : ℕ → ℕ → ℚ) (bbox : BBox) (doy : ℤ)
        (res : ℚ),
      match generate_ndvi_raster trig noise bbox doy res with
      | .error _ => True
      | .ok (r, _) => cellsInUnit r) ∧
    (∀ (trig : TrigOracle) (noise : ℕ → ℕ → ℚ) (doy : ℤ) (nd : Raster),
      cellsInUnit (generate_soil_moisture_raster trig noise doy nd)) := by
  constructor
  · intro trig noise bbox doy res
    cases hgen : generate_ndvi_raster trig noise bbox doy res with
    | error e => exact trivial
    | ok rg =>
      obtain ⟨r, g⟩ := rg
      unfold generate_ndvi_raster at hgen
      split at hgen
      · exact Except.noConfusion hgen
      · split at hgen
        · exact Except.noConfusion hgen
        · simp only [Except.ok.injEq, Prod.mk.injEq] at hgen
          obtain ⟨rfl, rfl⟩ := hgen
          intro i j
          dsimp only
          split
          · exact clip01_mem _
          · split
            · exact clip01_mem _
            · exact clip01_mem _
  · intro trig noise doy nd i j
    exact clip01_mem _

theorem pyInt_intCast (z : ℤ) : pyInt ((z : ℤ) : ℚ) = z :=
  pyInt_cast_eq rfl

theorem generate_ndvi_ok_parts (trig : TrigOracle) (noise : ℕ → ℕ → ℚ)
    (bbox : BBox) (doy : ℤ) (res : ℚ) (hres : res ≠ 0)
    (hw : 0 ≤ pyInt ((bbox.maxx - bbox.minx) / res))
    (hh : 0 ≤ pyInt ((bbox.maxy - bbox.miny) / res)) :
    ndviWidth (generate_ndvi_raster trig noise bbox doy res) =
      some (pyInt ((bbox.maxx - bbox.minx) / res)).toNat ∧
    ndviHeight (generate_ndvi_raster trig noise bbox doy res) =
      some (pyInt ((bbox.maxy - bbox.miny) / res)).toNat ∧
    ndviGeo (generate_ndvi_raster trig noise bbox doy res) =
      some ⟨bbox.minx, res, bbox.maxy, -res⟩ := by
  unfold generate_ndvi_raster ndviWidth ndviHeight ndviGeo
  rw [if_neg hres, if_neg (by omega : ¬(pyInt ((bbox.maxx - bbox.minx) / res) < 0 ∨
    pyInt ((bbox.maxy - bbox.miny) / res) < 0))]
  exact ⟨rfl, rfl, rfl⟩

theorem generate_temp_ok_parts (trig : TrigOracle) (noise : ℕ → ℕ → ℚ)
    (bbox : BBox) (doy : ℤ) (res : ℚ) (hres : res ≠ 0)
    (hw : 0 ≤ pyInt ((bbox.maxx - bbox.minx) / res))
    (hh : 0 ≤ pyInt ((bbox.maxy - bbox.miny) / res)) :
    tempWidth (generate_temperature_raster trig noise bbox doy res) =
      some (pyInt ((bbox.maxx - bbox.minx) / res)).toNat ∧
    tempHeight (generate_temperature_raster trig noise bbox doy res) =
      some (pyInt ((bbox.maxy - bbox.miny) / res)).toNat := by
  unfold generate_temperature_raster tempWidth tempHeight
  rw [if_neg hres, if_neg (by omega : ¬(pyInt ((bbox.maxx - bbox.minx) / res) < 0 ∨
    pyInt ((bbox.maxy - bbox.miny) / res) < 0))]
  exact ⟨rfl, rfl⟩

/-- C8: `zonal_statistics` is a pure, deterministic function: two
invocations with structurally identical inputs return identical statistics;
the embedding threads no state of any kind. -/
theorem zonal_stats_deterministic (sqrtO : ℚ → ℚ) (r₁ r₂ : Raster)
    (g₁ g₂ : GeoTransform) (p₁ p₂ : Polygon)
    (hr : r₁ = r₂) (hg : g₁ = g₂) (hp : p₁ = p₂) :
    zonal_statistics sqrtO r₁ g₁ p₁ = zonal_statistics sqrtO r₂ g₂ p₂ := by
  subst hr hg hp
  rfl

/-- Witness for C8 at a concrete raster, geotransform and polygon. -/
theorem zonal_stats_deterministic_witness :
    zonal_statistics zeroSqrt w1r w1g w1p =
      zonal_statistics zeroSqrt w1r w1g w1p :=
  zonal_stats_deterministic zeroSqrt w1r w1r w1g w1g w1p w1p rfl rfl rfl

/-- C2 counterexample: a degenerate bounding box with `minX = maxX` does
not fail fast; `generate_ndvi_raster` returns a raster (of width zero)
rather than an error. -/
theorem synth_invalid_input_counterexample :
    ndviWidth (generate_ndvi_raster zeroTrig zeroNoise
      ⟨0, 0, 0, 1⟩ 80 (1/100)) = some 0 := by
  have h := (generate_ndvi_ok_parts zeroTrig zeroNoise ⟨0, 0, 0, 1⟩ 80 (1/100)
    (by norm_num)
    (by rw [pyInt_cast_eq (show ((0:ℚ) - 0) / (1/100) = ((0 : ℤ) : ℚ) by norm_num)])
    (by rw [pyInt_cast_eq (show ((1:ℚ) - 0) / (1/100) = ((100 : ℤ) : ℚ) by norm_num)]
        norm_num)).1
  rw [h, pyInt_cast_eq (show ((0:ℚ) - 0) / (1/100) = ((0 : ℤ) : ℚ) by norm_num)]
  rfl

/-- C2 (amended): the synthesizers perform no input validation.  A zero
resolution fails with the division-by-zero error; a negative computed grid
dimension fails with the negative-dimension error; but a degenerate
bounding box with `minX = maxX` succeeds with an empty raster, and
soil-moisture synthesis checks nothing at all — it returns a raster shaped
like its dependency raster regardless of the bbox/resolution grid. -/
theorem synth_no_validation :
    (∀ (trig : TrigOracle) (noise : ℕ → ℕ → ℚ) (bbox : BBox) (doy : ℤ),
      generate_ndvi_raster trig noise bbox doy 0 = .error .zeroDivision) ∧
    (∀ (trig : TrigOracle) (noise : ℕ → ℕ → ℚ) (doy : ℤ),
      generate_ndvi_raster trig noise ⟨0, 0, 2, 2⟩ doy (-1) =
        .error .negativeDimension) ∧
    (∀ (trig : TrigOracle) (noise : ℕ → ℕ → ℚ) (doy : ℤ),
      ndviWidth (generate_ndvi_raster trig noise ⟨0, 0, 0, 1⟩ doy (1/100)) =
        some 0) ∧
    (∀ (trig : TrigOracle) (noise : ℕ → ℕ → ℚ) (doy : ℤ) (nd : Raster),
      (generate_soil_moisture_raster trig noise doy nd).height = nd.height ∧
      (generate_soil_moisture_raster trig noise doy nd).width = nd.width) := by
  refine ⟨?_, ?_, ?_, ?_⟩
  · intro trig noise bbox doy
    unfold generate_ndvi_raster
    rw [if_pos rfl]
  · intro trig noise doy
    unfold generate_ndvi_raster
    rw [if_neg (by norm_num : ¬(-1 : ℚ) = 0)]
    rw [if_pos]
    left
    rw [pyInt_cast_eq (show ((2:ℚ) - 0) / (-1) = ((-2 : ℤ) : ℚ) by norm_num)]
    norm_num
  · intro trig noise doy
    have h := (generate_ndvi_ok_parts trig noise ⟨0, 0, 0, 1⟩ doy (1/100)
      (by norm_num)
      (by rw [pyInt_cast_eq (show ((0:ℚ) - 0) / (1/100) = ((0 : ℤ) : ℚ) by norm_num)])
      (by rw [pyInt_cast_eq (show ((1:ℚ) - 0) / (1/100) = ((100 : ℤ) : ℚ) by norm_num)]
          norm_num)).1
    rw [h, pyInt_cast_eq (show ((0:ℚ) - 0) / (1/100) = ((0 : ℤ) : ℚ) by norm_num)]
    rfl
  · intro trig noise doy nd
    exact ⟨rfl, rfl⟩

/-- C1 counterexample: for bbox `(0, 0, 1.7, 1)` and resolution `1`, the
code computes `width = int(1.7) = 1`, while the claimed formula
`round((maxX - minX) / resolution)` gives `2`. -/
theorem raster_dims_round_counterexample :
    ndviWidth (generate_ndvi_raster zeroTrig zeroNoise
        ⟨0, 0, 17/10, 1⟩ 80 1) = some 1 ∧
    round (((17:ℚ)/10 - 0) / 1) = 2 := by
  have hw : pyInt (((⟨0, 0, 17/10, 1⟩ : BBox).maxx -
      (⟨0, 0, 17/10, 1⟩ : BBox).minx) / 1) = 1 := by
    show pyInt (((17:ℚ)/10 - 0) / 1) = 1
    rw [pyInt_of_nonneg (by norm_num), Int.floor_eq_iff]
    norm_num
  have hh : pyInt (((⟨0, 0, 17/10, 1⟩ : BBox).maxy -
      (⟨0, 0, 17/10, 1⟩ : BBox).miny) / 1) = 1 := by
    show pyInt (((1:ℚ) - 0) / 1) = 1
    rw [pyInt_cast_eq (show ((1:ℚ) - 0) / 1 = ((1 : ℤ) : ℚ) by norm_num)]
  constructor
  · have h := (generate_ndvi_ok_parts zeroTrig zeroNoise ⟨0, 0, 17/10, 1⟩ 80 1
      (by norm_num) (by rw [hw]; norm_num) (by rw [hh]; norm_num)).1
    rw [h, hw]
    rfl
  · rw [round_eq, Int.floor_eq_iff]
    norm_num

/-- C1 (amended): for every valid bounding box (`minX < maxX`,
`minY < maxY`) and every resolution `> 0`, the rasters returned by
`generate_ndvi_raster` and `generate_temperature_raster` have
`height = floor((maxY - minY) / resolution)` and
`width = floor((maxX - minX) / resolution)` (Python `int` truncation,
which is the floor for these nonnegative quotients, not rounding), and the
NDVI geotransform is `(minX, resolution, 0, maxY, 0, -resolution)`. -/
theorem raster_dims_eq_floor (trig : TrigOracle) (noise : ℕ → ℕ → ℚ)
    (bbox : BBox) (doy : ℤ) (res : ℚ)
    (hx : bbox.minx < bbox.maxx) (hy : bbox.miny < bbox.maxy)
    (hres : 0 < res) :
    ndviWidth (generate_ndvi_raster trig noise bbox doy res) =
      some (⌊(bbox.maxx - bbox.minx) / res⌋).toNat ∧
    ndviHeight (generate_ndvi_raster trig noise bbox doy res) =
      some (⌊(bbox.maxy - bbox.miny) / res⌋).toNat ∧
    ndviGeo (generate_ndvi_raster trig noise bbox doy res) =
      some ⟨bbox.minx, res, bbox.maxy, -res⟩ ∧
    tempWidth (generate_temperature_raster trig noise bbox doy res) =
      some (⌊(bbox.maxx - bbox.minx) / res⌋).toNat ∧
    tempHeight (generate_temperature_raster trig noise bbox doy res) =
      some (⌊(bbox.maxy - bbox.miny) / res⌋).toNat := by
  have hqw : 0 ≤ (bbox.maxx - bbox.minx) / res :=
    div_nonneg (by linarith) hres.le
  have hqh : 0 ≤ (bbox.maxy - bbox.miny) / res :=
    div_nonneg (by linarith) hres.le
  have hpw : pyInt ((bbox.maxx - bbox.minx) / res) =
      ⌊(bbox.maxx - bbox.minx) / res⌋ := pyInt_of_nonneg hqw
  have hph : pyInt ((bbox.maxy - bbox.miny) / res) =
      ⌊(bbox.maxy - bbox.miny) / res⌋ := pyInt_of_nonneg hqh
  have hw0 : 0 ≤ pyInt ((bbox.maxx - bbox.minx) / res) := by
    rw [hpw]; exact Int.floor_nonneg.2 hqw
  have hh0 : 0 ≤ pyInt ((bbox.maxy - bbox.miny) / res) := by
    rw [hph]; exact Int.floor_nonneg.2 hqh
  obtain ⟨h1, h2, h3⟩ :=
    generate_ndvi_ok_parts trig noise bbox doy res hres.ne' hw0 hh0
  obtain ⟨h4, h5⟩ :=
    generate_temp_ok_parts trig noise bbox doy res hres.ne' hw0 hh0
  rw [h1, h2, h3, h4, h5, hpw, hph]
  exact ⟨rfl, rfl, rfl, rfl, rfl⟩

/-- Witness for C1 (amended) at bbox `(0, 0, 1.7, 1)`, resolution `1`:
the raster is 1 pixel wide and 1 pixel high. -/
theorem raster_dims_eq_floor_witness :
    ndviWidth (generate_ndvi_raster zeroTrig zeroNoise
      ⟨0, 0, 17/10, 1⟩ 80 1) = some 1 ∧
    tempHeight (generate_temperature_raster zeroTrig zeroNoise
      ⟨0, 0, 17/10, 1⟩ 80 1) = some 1 := by
  obtain ⟨h1, h2, h3, h4, h5⟩ := raster_dims_eq_floor zeroTrig zeroNoise
    ⟨0, 0, 17/10, 1⟩ 80 1 (by norm_num) (by norm_num) (by norm_num)
  have hfw : ⌊(((⟨0, 0, 17/10, 1⟩ : BBox).maxx -
      (⟨0, 0, 17/10, 1⟩ : BBox).minx) / 1)⌋ = 1 := by
    show ⌊((17:ℚ)/10 - 0) / 1⌋ = 1
    rw [Int.floor_eq_iff]
    norm_num
  have hfh : ⌊(((⟨0, 0, 17/10, 1⟩ : BBox).maxy -
      (⟨0, 0, 17/10, 1⟩ : BBox).miny) / 1)⌋ = 1 := by
    show ⌊((1:ℚ) - 0) / 1⌋ = 1
    rw [Int.floor_eq_iff]
    norm_num
  rw [hfw] at h1
  rw [hfh] at h5
  exact ⟨h1, h5⟩

theorem mem_intRange {lo hi a : ℤ} :
    a ∈ intRange lo hi ↔ lo ≤ a ∧ a ≤ hi := by
  unfold intRange
  rw [List.mem_map]
  constructor
  · rintro ⟨k, hk, rfl⟩
    rw [List.mem_range] at hk
    omega
  · rintro ⟨h1, h2⟩
    refine ⟨(a - lo).toNat, ?_, ?_⟩
    · rw [List.mem_range]
      omega
    · show lo + (((a - lo).toNat : ℕ) : ℤ) = a
      omega

theorem mem_scannedPixels {r : Raster} {g : GeoTransform} {p : Polygon}
    {y x : ℤ} :
    (y, x) ∈ scannedPixels r g p ↔
      yMinPx g p ≤ y ∧ y ≤ yMaxPx r g p ∧
      xMinPx g p ≤ x ∧ x ≤ xMaxPx r g p := by
  unfold scannedPixels
  simp only [List.mem_flatMap, List.mem_map, mem_intRange, Prod.mk.injEq]
  constructor
  · rintro ⟨y', ⟨hy1, hy2⟩, x', ⟨hx1, hx2⟩, rfl, rfl⟩
    exact ⟨hy1, hy2, hx1, hx2⟩
  · rintro ⟨hy1, hy2, hx1, hx2⟩
    exact ⟨y, ⟨hy1, hy2⟩, x, ⟨hx1, hx2⟩, rfl, rfl⟩

theorem scanned_in_bounds {r : Raster} {g : GeoTransform} {p : Polygon}
    {y x : ℤ} (hm : (y, x) ∈ scannedPixels r g p) :
    0 ≤ y ∧ y < (r.height : ℤ) ∧ 0 ≤ x ∧ x < (r.width : ℤ) := by
  rw [mem_scannedPixels] at hm
  have h1 : (0 : ℤ) ≤ yMinPx g p := le_max_left 0 _
  have h2 : yMaxPx r g p ≤ (r.height : ℤ) - 1 := min_le_left _ _
  have h3 : (0 : ℤ) ≤ xMinPx g p := le_max_left 0 _
  have h4 : xMaxPx r g p ≤ (r.width : ℤ) - 1 := min_le_left _ _
  omega

theorem collect_isSome (r : Raster) (g : GeoTransform) (p : Polygon)
    (l : List (ℤ × ℤ))
    (h : ∀ yx ∈ l, 0 ≤ yx.1 ∧ yx.1 < (r.height : ℤ) ∧
      0 ≤ yx.2 ∧ yx.2 < (r.width : ℤ)) :
    (l.foldr (collectStep r g p) (some [])).isSome = true := by
  induction l with
  | nil => rfl
  | cons a l ih =>
    have hrest := ih (fun yx hyx => h yx (List.mem_cons_of_mem a hyx))
    obtain ⟨vs, hvs⟩ := Option.isSome_iff_exists.1 hrest
    have hg : r.get? a.1 a.2 = some (r.data a.1.toNat a.2.toNat) := by
      unfold Raster.get?
      rw [if_pos (h a (List.mem_cons_self a l))]
    rw [List.foldr_cons, hvs]
    show (collectStep r g p a (some vs)).isSome = true
    unfold collectStep
    dsimp only
    rw [hg]
    split <;> rfl

theorem collect_empty (r : Raster) (g : GeoTransform) (p : Polygon)
    (l : List (ℤ × ℤ))
    (h : ∀ yx ∈ l,
      p.contains (pixelCenterX g yx.2) (pixelCenterY g yx.1) = false) :
    l.foldr (collectStep r g p) (some []) = some [] := by
  induction l with
  | nil => rfl
  | cons a l ih =>
    rw [List.foldr_cons, ih (fun yx hyx => h yx (List.mem_cons_of_mem a hyx))]
    show collectStep r g p a (some []) = some []
    unfold collectStep
    dsimp only
    rw [h a (List.mem_cons_self a l)]
    rfl

/-- C9: every raster access `raster[y, x]` performed by `zonal_statistics`
is in bounds — the clamped pixel window guarantees `0 ≤ y < height` and
`0 ≤ x < width` for every scanned index — so the out-of-bounds
(`IndexError`) branch of the embedding is unreachable and the call
returns a result for every polygon. -/
theorem zonal_scan_in_bounds (sqrtO : ℚ → ℚ) (r : Raster)
    (g : GeoTransform) (p : Polygon)
    (hpw : 0 < g.pixelWidth) (hrs : g.rowStep ≠ 0) :
    (∀ y x, (y, x) ∈ scannedPixels r g p →
      0 ≤ y ∧ y < (r.height : ℤ) ∧ 0 ≤ x ∧ x < (r.width : ℤ)) ∧
    (zonal_statistics sqrtO r g p).isSome = true := by
  refine ⟨fun y x hm => scanned_in_bounds hm, ?_⟩
  unfold zonal_statistics
  rw [if_neg (by push_neg; exact ⟨hpw.ne', hrs⟩)]
  have hc := collect_isSome r g p (scannedPixels r g p)
    (fun yx hyx => scanned_in_bounds (by
      have : (yx.1, yx.2) = yx := rfl
      rw [this]; exact hyx))
  obtain ⟨vs, hvs⟩ := Option.isSome_iff_exists.1 hc
  unfold collectValues
  rw [hvs]
  rfl

/-- Witness for C9 on a concrete raster, geotransform and polygon. -/
theorem zonal_scan_in_bounds_witness :
    (zonal_statistics zeroSqrt w1r w1g w1p).isSome = true :=
  (zonal_scan_in_bounds zeroSqrt w1r w1g w1p
    (by rw [w1g]; norm_num) (by rw [w1g]; norm_num)).2

theorem scanned_center_in_extent {r : Raster} {g : GeoTransform}
    {p : Polygon} {y x : ℤ} (hpw : 0 < g.pixelWidth)
    (hm : (y, x) ∈ scannedPixels r g p) :
    g.xOrigin ≤ pixelCenterX g x ∧
    pixelCenterX g x ≤ g.xOrigin + (r.width : ℚ) * g.pixelWidth ∧
    g.yOrigin - (r.height : ℚ) * |g.rowStep| ≤ pixelCenterY g y ∧
    pixelCenterY g y ≤ g.yOrigin := by
  obtain ⟨hy0, hyh, hx0, hxw⟩ := scanned_in_bounds hm
  have hxq0 : (0 : ℚ) ≤ (x : ℚ) := by exact_mod_cast hx0
  have hxqw : (x : ℚ) + 1 ≤ (r.width : ℚ) := by exact_mod_cast hxw
  have hyq0 : (0 : ℚ) ≤ (y : ℚ) := by exact_mod_cast hy0
  have hyqh : (y : ℚ) + 1 ≤ (r.height : ℚ) := by exact_mod_cast hyh
  have habs : 0 ≤ |g.rowStep| := abs_nonneg _
  unfold pixelCenterX pixelCenterY
  refine ⟨?_, ?_, ?_, ?_⟩
  · nlinarith
  · nlinarith
  · nlinarith
  · nlinarith

/-- C5: for every raster, geotransform (with the data-model invariants
`pixelWidth > 0`, `rowStep ≠ 0`) and polygon lying entirely outside the
raster extent, `zonal_statistics` returns the all-null record with
`count = 0` and raises no error, even when the clamped pixel window is
empty or inverted. -/
theorem zonal_stats_outside_polygon_null (sqrtO : ℚ → ℚ) (r : Raster)
    (g : GeoTransform) (p : Polygon)
    (hpw : 0 < g.pixelWidth) (hrs : g.rowStep ≠ 0)
    (hout : ∀ qx qy : ℚ,
      g.xOrigin ≤ qx → qx ≤ g.xOrigin + (r.width : ℚ) * g.pixelWidth →
      g.yOrigin - (r.height : ℚ) * |g.rowStep| ≤ qy → qy ≤ g.yOrigin →
      p.contains qx qy = false) :
    zonal_statistics sqrtO r g p = some nullStats := by
  unfold zonal_statistics
  rw [if_neg (by push_neg; exact ⟨hpw.ne', hrs⟩)]
  have hempty : collectValues r g p = some [] := by
    unfold collectValues
    apply collect_empty
    intro yx hyx
    have hyx' : (yx.1, yx.2) ∈ scannedPixels r g p := hyx
    obtain ⟨h1, h2, h3, h4⟩ := scanned_center_in_extent hpw hyx'
    exact hout _ _ h1 h2 h3 h4
  rw [hempty]
  rfl

/-- Witness for C5: a 1×1 raster over the unit square and a polygon far
away from it. -/
theorem zonal_stats_outside_polygon_null_witness :
    zonal_statistics zeroSqrt w1r w1g w5p = some nullStats := by
  apply zonal_stats_outside_polygon_null
  · rw [w1g]
    norm_num
  · rw [w1g]
    norm_num
  · intro qx qy h1 h2 h3 h4
    have hx : qx ≤ 1 := by
      have : (w1r.width : ℚ) * w1g.pixelWidth = 1 := by norm_num [w1r, w1g]
      rw [this] at h2
      simpa [w1g] using h2
    unfold w5p rectPolygon
    simp only [decide_eq_false_iff_not]
    rintro ⟨h5, -⟩
    linarith

theorem foldl_min_le_init (vs : List ℚ) (v : ℚ) : vs.foldl min v ≤ v := by
  induction vs generalizing v with
  | nil => exact le_refl v
  | cons a l ih =>
    rw [List.foldl_cons]
    exact le_trans (ih (min v a)) (min_le_left v a)

theorem foldl_min_le_mem (vs : List ℚ) (v x : ℚ) (h : x ∈ vs) :
    vs.foldl min v ≤ x := by
  induction vs generalizing v with
  | nil => cases h
  | cons a l ih =>
    rw [List.foldl_cons]
    rcases List.mem_cons.1 h with rfl | hx
    · exact le_trans (foldl_min_le_init l (min v x)) (min_le_right v x)
    · exact ih _ hx

theorem le_foldl_max_init (vs : List ℚ) (v : ℚ) : v ≤ vs.foldl max v := by
  induction vs generalizing v with
  | nil => exact le_refl v
  | cons a l ih =>
    rw [List.foldl_cons]
    exact le_trans (le_max_left v a) (ih (max v a))

theorem le_foldl_max_mem (vs : List ℚ) (v x : ℚ) (h : x ∈ vs) :
    x ≤ vs.foldl max v := by
  induction vs generalizing v with
  | nil => cases h
  | cons a l ih =>
    rw [List.foldl_cons]
    rcases List.mem_cons.1 h with rfl | hx
    · exact le_trans (le_max_right v x) (le_foldl_max_init l (max v x))
    · exact ih _ hx

theorem mul_length_le_sum (l : List ℚ) (m : ℚ) (h : ∀ x ∈ l, m ≤ x) :
    m * (l.length : ℚ) ≤ l.sum := by
  induction l with
  | nil => simp
  | cons a t ih =>
    rw [List.sum_cons, List.length_cons]
    push_cast
    have h1 := h a (List.mem_cons_self a t)
    have h2 := ih (fun x hx => h x (List.mem_cons_of_mem a hx))
    nlinarith

theorem sum_le_mul_length (l : List ℚ) (m : ℚ) (h : ∀ x ∈ l, x ≤ m) :
    l.sum ≤ m * (l.length : ℚ) := by
  induction l with
  | nil => simp
  | cons a t ih =>
    rw [List.sum_cons, List.length_cons]
    push_cast
    have h1 := h a (List.mem_cons_self a t)
    have h2 := ih (fun x hx => h x (List.mem_cons_of_mem a hx))
    nlinarith

/-- C10: every result of `zonal_statistics` is internally consistent:
`count ≥ 0` (it is a natural number), `count = 0` exactly when `min`,
`max`, `mean` and `std` are all the null sentinel, and when `count > 0`
the statistics satisfy `min ≤ mean ≤ max`. -/
theorem zonal_stats_count_consistency (sqrtO : ℚ → ℚ) (r : Raster)
    (g : GeoTransform) (p : Polygon) (s : ZonalStats)
    (h : zonal_statistics sqrtO r g p = some s) :
    0 ≤ s.count ∧
    (s.count = 0 ↔
      s.min = none ∧ s.max = none ∧ s.mean = none ∧ s.std = none) ∧
    (0 < s.count → ∃ a m b : ℚ, s.min = some a ∧ s.mean = some m ∧
      s.max = some b ∧ a ≤ m ∧ m ≤ b) := by
  unfold zonal_statistics at h
  split at h
  · exact absurd h (by simp)
  · obtain ⟨vals, hvals, rfl⟩ := Option.map_eq_some'.1 h
    refine ⟨Nat.zero_le _, ?_, ?_⟩
    · cases vals with
      | nil => simp [statsOfValues, nullStats]
      | cons v vs => simp [statsOfValues]
    · cases vals with
      | nil => simp [statsOfValues, nullStats]
      | cons v vs =>
        intro _
        have hlen : (0 : ℚ) < ((vs.length + 1 : ℕ) : ℚ) := by positivity
        have hminmem : ∀ x ∈ v :: vs, vs.foldl min v ≤ x := by
          intro x hx
          rcases List.mem_cons.1 hx with rfl | hx'
          · exact foldl_min_le_init vs x
          · exact foldl_min_le_mem vs v x hx'
        have hmaxmem : ∀ x ∈ v :: vs, x ≤ vs.foldl max v := by
          intro x hx
          rcases List.mem_cons.1 hx with rfl | hx'
          · exact le_foldl_max_init vs x
          · exact le_foldl_max_mem vs v x hx'
        have hlo := mul_length_le_sum (v :: vs) (vs.foldl min v) hminmem
        have hhi := sum_le_mul_length (v :: vs) (vs.foldl max v) hmaxmem
        refine ⟨vs.foldl min v,
          (v :: vs).sum / ((vs.length + 1 : ℕ) : ℚ),
          vs.foldl max v, rfl, rfl, rfl, ?_, ?_⟩
        · rw [le_div_iff₀ hlen]
          have : ((v :: vs).length : ℚ) = ((vs.length + 1 : ℕ) : ℚ) := by
            rw [List.length_cons]
          rw [this] at hlo
          exact hlo
        · rw [div_le_iff₀ hlen]
          have : ((v :: vs).length : ℚ) = ((vs.length + 1 : ℕ) : ℚ) := by
            rw [List.length_cons]
          rw [this] at hhi
          exact hhi

theorem zonal_single_pixel (sqrtO : ℚ → ℚ) (r : Raster) (g : GeoTransform)
    (p : Polygon) (hpw : g.pixelWidth ≠ 0) (hrs : g.rowStep ≠ 0)
    (hxmin : xMinPx g p = 0) (hxmax : xMaxPx r g p = 0)
    (hymin : yMinPx g p = 0) (hymax : yMaxPx r g p = 0)
    (hcont : p.contains (pixelCenterX g 0) (pixelCenterY g 0) = true)
    (hh : 0 < r.height) (hw : 0 < r.width) :
    zonal_statistics sqrtO r g p =
      some ⟨some (r.data 0 0), some (r.data 0 0), some (r.data 0 0),
        some (sqrtO 0), 1⟩ := by
  have hscan : scannedPixels r g p = [(0, 0)] := by
    unfold scannedPixels
    rw [hxmin, hxmax, hymin, hymax]
    rfl
  have hget : r.get? 0 0 = some (r.data 0 0) := by
    unfold Raster.get?
    rw [if_pos]
    · rfl
    · refine ⟨le_refl 0, ?_, le_refl 0, ?_⟩
      · exact_mod_cast hh
      · exact_mod_cast hw
  unfold zonal_statistics
  rw [if_neg (by push_neg; exact ⟨hpw, hrs⟩)]
  unfold collectValues
  rw [hscan, List.foldr_cons, List.foldr_nil]
  show Option.map (statsOfValues sqrtO) (collectStep r g p (0, 0) (some [])) = _
  unfold collectStep
  dsimp only
  rw [hcont, if_pos rfl, hget]
  show some (statsOfValues sqrtO [r.data 0 0]) = _
  unfold statsOfValues
  simp only [List.foldl_nil, List.length_nil, List.sum_cons, List.sum_nil,
    List.map_cons, List.map_nil, add_zero, Nat.zero_add, Nat.cast_one,
    div_one, sub_self]
  norm_num

theorem zonal_w1_eval :
    zonal_statistics zeroSqrt w1r w1g w1p =
      some ⟨some 0, some 0, some 0, some 0, 1⟩ := by
  have e1 : xMinPx w1g w1p = 0 := by
    unfold xMinPx w1g w1p rectPolygon
    rw [pyInt_cast_eq (show ((0:ℚ) - 0) / 1 = ((0 : ℤ) : ℚ) by norm_num)]
    decide
  have e2 : xMaxPx w1r w1g w1p = 0 := by
    unfold xMaxPx w1r w1g w1p rectPolygon
    rw [pyInt_cast_eq (show ((1:ℚ) - 0) / 1 = ((1 : ℤ) : ℚ) by norm_num)]
    decide
  have e3 : yMinPx w1g w1p = 0 := by
    unfold yMinPx w1g w1p rectPolygon
    rw [pyInt_cast_eq (show ((1:ℚ) - 1) / |(-1 : ℚ)| = ((0 : ℤ) : ℚ) by norm_num)]
    decide
  have e4 : yMaxPx w1r w1g w1p = 0 := by
    unfold yMaxPx w1r w1g w1p rectPolygon
    rw [pyInt_cast_eq (show ((1:ℚ) - 0) / |(-1 : ℚ)| = ((1 : ℤ) : ℚ) by norm_num)]
    decide
  have hcont : w1p.contains (pixelCenterX w1g 0) (pixelCenterY w1g 0) = true := by
    unfold w1p rectPolygon pixelCenterX pixelCenterY w1g
    rw [decide_eq_true_eq]
    norm_num
  exact zonal_single_pixel zeroSqrt w1r w1g w1p
    (by unfold w1g; norm_num) (by unfold w1g; norm_num)
    e1 e2 e3 e4 hcont (by unfold w1r; norm_num) (by unfold w1r; norm_num)

/-- Witness for C10 from the concrete single-pixel evaluation. -/
theorem zonal_stats_count_consistency_witness :
    0 ≤ (1 : ℕ) ∧
    ((1 : ℕ) = 0 ↔
      (some (0:ℚ) = none ∧ some (0:ℚ) = none ∧ some (0:ℚ) = none ∧
        some (0:ℚ) = none)) ∧
    (0 < (1 : ℕ) → ∃ a m b : ℚ, some (0:ℚ) = some a ∧
      some (0:ℚ) = some m ∧ some (0:ℚ) = some b ∧ a ≤ m ∧ m ≤ b) :=
  zonal_stats_count_consistency zeroSqrt w1r w1g w1p
    ⟨some 0, some 0, some 0, some 0, 1⟩ zonal_w1_eval

theorem pyInt_eq_zero_of {q : ℚ} (h0 : 0 ≤ q) (h1 : q < 1) : pyInt q = 0 := by
  rw [pyInt_of_nonneg h0, Int.floor_eq_iff]
  exact ⟨by exact_mod_cast h0, by push_cast; linarith⟩

/-- C6: with bbox `(0, 0, 1, 1)` and resolution `0.5` the synthesizer
produces a 2×2 raster with geotransform `(0, 0.5, 0, 1, 0, -0.5)`, and
`zonal_statistics` on that raster with a polygon covering exactly the
top-left cell center `(0.25, 0.75)` returns `count = 1` and
`min = max = mean =` the value of that cell. -/
theorem scenario_2x2_topleft_cell (trig : TrigOracle) (noise : ℕ → ℕ → ℚ)
    (sqrtO : ℚ → ℚ) (doy : ℤ) :
    ndviHeight (generate_ndvi_raster trig noise bbox6 doy (1/2)) = some 2 ∧
    ndviWidth (generate_ndvi_raster trig noise bbox6 doy (1/2)) = some 2 ∧
    ndviGeo (generate_ndvi_raster trig noise bbox6 doy (1/2)) = some g6 ∧
    (ndviZonal sqrtO (generate_ndvi_raster trig noise bbox6 doy (1/2))
      p6).map ZonalStats.count = some 1 ∧
    (ndviZonal sqrtO (generate_ndvi_raster trig noise bbox6 doy (1/2))
      p6).bind ZonalStats.min =
      ndviData (generate_ndvi_raster trig noise bbox6 doy (1/2)) 0 0 ∧
    (ndviZonal sqrtO (generate_ndvi_raster trig noise bbox6 doy (1/2))
      p6).bind ZonalStats.max =
      ndviData (generate_ndvi_raster trig noise bbox6 doy (1/2)) 0 0 ∧
    (ndviZonal sqrtO (generate_ndvi_raster trig noise bbox6 doy (1/2))
      p6).bind ZonalStats.mean =
      ndviData (generate_ndvi_raster trig noise bbox6 doy (1/2)) 0 0 := by
  have hpw : pyInt ((bbox6.maxx - bbox6.minx) / (1/2)) = 2 := by
    show pyInt (((1:ℚ) - 0) / (1/2)) = 2
    rw [pyInt_cast_eq (show ((1:ℚ) - 0) / (1/2) = ((2 : ℤ) : ℚ) by norm_num)]
  have hph : pyInt ((bbox6.maxy - bbox6.miny) / (1/2)) = 2 := by
    show pyInt (((1:ℚ) - 0) / (1/2)) = 2
    rw [pyInt_cast_eq (show ((1:ℚ) - 0) / (1/2) = ((2 : ℤ) : ℚ) by norm_num)]
  obtain ⟨h1, h2, h3⟩ := generate_ndvi_ok_parts trig noise bbox6 doy (1/2)
    (by norm_num) (by rw [hpw]; norm_num) (by rw [hph]; norm_num)
  rw [hpw] at h1
  rw [hph] at h2
  cases hgen : generate_ndvi_raster trig noise bbox6 doy (1/2) with
  | error e =>
    rw [hgen] at h1
    simp [ndviWidth, Except.toOption] at h1
  | ok rg =>
    obtain ⟨r, g⟩ := rg
    rw [hgen] at h1 h2 h3
    have hw2 : r.width = 2 := by
      simpa [ndviWidth, Except.toOption] using h1
    have hh2 : r.height = 2 := by
      simpa [ndviHeight, Except.toOption] using h2
    have hgg : g = g6 := by
      simpa [ndviGeo, Except.toOption, g6] using h3
    subst hgg
    have e1 : xMinPx g6 p6 = 0 := by
      unfold xMinPx g6 p6 rectPolygon
      rw [pyInt_eq_zero_of (by norm_num) (by norm_num)]
      decide
    have e2 : xMaxPx r g6 p6 = 0 := by
      unfold xMaxPx g6 p6 rectPolygon
      rw [hw2, pyInt_eq_zero_of (by norm_num) (by norm_num)]
      decide
    have e3 : yMinPx g6 p6 = 0 := by
      unfold yMinPx g6 p6 rectPolygon
      rw [pyInt_eq_zero_of (by norm_num [abs_of_pos]) (by norm_num [abs_of_pos])]
      decide
    have e4 : yMaxPx r g6 p6 = 0 := by
      unfold yMaxPx g6 p6 rectPolygon
      rw [hh2, pyInt_eq_zero_of (by norm_num [abs_of_pos]) (by norm_num [abs_of_pos])]
      decide
    have hcont : p6.contains (pixelCenterX g6 0) (pixelCenterY g6 0) = true := by
      unfold p6 rectPolygon pixelCenterX pixelCenterY g6
      rw [decide_eq_true_eq]
      norm_num [abs_of_pos]
    have hz := zonal_single_pixel sqrtO r g6 p6
      (by unfold g6; norm_num) (by unfold g6; norm_num)
      e1 e2 e3 e4 hcont (by omega) (by omega)
    refine ⟨?_, ?_, ?_, ?_, ?_, ?_, ?_⟩
    · simp [ndviHeight, Except.toOption, hh2]
    · simp [ndviWidth, Except.toOption, hw2]
    · exact h3
    · show (zonal_statistics sqrtO r g6 p6).map ZonalStats.count = some 1
      rw [hz]
      rfl
    · show (zonal_statistics sqrtO r g6 p6).bind ZonalStats.min =
        ndviData (Except.ok (r, g6)) 0 0
      rw [hz]
      rfl
    · show (zonal_statistics sqrtO r g6 p6).bind ZonalStats.max =
        ndviData (Except.ok (r, g6)) 0 0
      rw [hz]
      rfl
    · show (zonal_statistics sqrtO r g6 p6).bind ZonalStats.mean =
        ndviData (Except.ok (r, g6)) 0 0
      rw [hz]
      rfl

theorem collect_full (r : Raster) (g : GeoTransform) (p : Polygon)
    (l : List (ℤ × ℤ))
    (h : ∀ yx ∈ l,
      p.contains (pixelCenterX g yx.2) (pixelCenterY g yx.1) = true ∧
      (0 ≤ yx.1 ∧ yx.1 < (r.height : ℤ) ∧ 0 ≤ yx.2 ∧ yx.2 < (r.width : ℤ))) :
    l.foldr (collectStep r g p) (some []) =
      some (l.map (fun yx => r.data yx.1.toNat yx.2.toNat)) := by
  induction l with
  | nil => rfl
  | cons a t ih =>
    have hrest := ih (fun yx hyx => h yx (List.mem_cons_of_mem a hyx))
    have hget : r.get? a.1 a.2 = some (r.data a.1.toNat a.2.toNat) := by
      unfold Raster.get?
      rw [if_pos (h a (List.mem_cons_self a t)).2]
    rw [List.foldr_cons, hrest]
    show collectStep r g p a
      (some (t.map (fun yx => r.data yx.1.toNat yx.2.toNat))) = _
    unfold collectStep
    dsimp only
    rw [(h a (List.mem_cons_self a t)).1, if_pos rfl, hget]
    rfl

theorem intRange_length (lo hi : ℤ) :
    (intRange lo hi).length = (hi + 1 - lo).toNat := by
  unfold intRange
  rw [List.length_map, List.length_range]

theorem intRange_zero_toNat (n : ℕ) :
    intRange 0 ((n : ℤ) - 1) = (List.range n).map (fun k : ℕ => (k : ℤ)) := by
  unfold intRange
  have h1 : ((n : ℤ) - 1 + 1 - 0).toNat = n := by omega
  rw [h1]
  exact List.map_congr_left (fun k _ => zero_add _)

theorem length_flatMap_const {α β : Type} (l : List α) (f : α → List β)
    (n : ℕ) (h : ∀ a ∈ l, (f a).length = n) :
    (l.flatMap f).length = l.length * n := by
  induction l with
  | nil => simp
  | cons a t ih =>
    rw [List.flatMap_cons, List.length_append, h a (List.mem_cons_self a t),
      ih (fun b hb => h b (List.mem_cons_of_mem a hb)), List.length_cons]
    ring

theorem sum_flatMap_rows {α : Type} (l : List α) (f : α → List ℚ) :
    (l.flatMap f).sum = (l.map (fun a => (f a).sum)).sum := by
  induction l with
  | nil => rfl
  | cons a t ih =>
    rw [List.flatMap_cons, List.sum_append, List.map_cons, List.sum_cons, ih]

theorem statsOfValues_count (sqrtO : ℚ → ℚ) (l : List ℚ) :
    (statsOfValues sqrtO l).count = l.length := by
  cases l with
  | nil => rfl
  | cons v vs => rfl

theorem statsOfValues_mean (sqrtO : ℚ → ℚ) (l : List ℚ) (hl : l ≠ []) :
    (statsOfValues sqrtO l).mean = some (l.sum / (l.length : ℚ)) := by
  cases l with
  | nil => exact absurd rfl hl
  | cons v vs => simp [statsOfValues]

/-- C3: on a raster with geotransform `(minX, res, 0, maxY, 0, -res)` and a
polygon exactly covering the full raster extent, `zonal_statistics` counts
every pixel (all `height × width` centers lie strictly inside the
rectangle, so none fail containment) and its mean is the arithmetic mean
of all cell values (exactly, in rational arithmetic). -/
theorem zonal_stats_full_extent (sqrtO : ℚ → ℚ) (r : Raster)
    (minx maxy res : ℚ) (hres : 0 < res)
    (hh : 0 < r.height) (hw : 0 < r.width) :
    (zonal_statistics sqrtO r (synthGeo minx maxy res)
        (fullExtentPolygon r minx maxy res)).map ZonalStats.count =
      some (r.height * r.width) ∧
    (zonal_statistics sqrtO r (synthGeo minx maxy res)
        (fullExtentPolygon r minx maxy res)).bind ZonalStats.mean =
      some (rasterSum r / ((r.height * r.width : ℕ) : ℚ)) := by
  have habs : |(synthGeo minx maxy res).rowStep| = res := by
    show |(-res)| = res
    rw [abs_neg]
    exact abs_of_pos hres
  have e1 : xMinPx (synthGeo minx maxy res)
      (fullExtentPolygon r minx maxy res) = 0 := by
    unfold xMinPx
    rw [show ((fullExtentPolygon r minx maxy res).minx -
        (synthGeo minx maxy res).xOrigin) /
        (synthGeo minx maxy res).pixelWidth = ((0 : ℤ) : ℚ) from by
      show (minx - minx) / res = ((0 : ℤ) : ℚ)
      rw [sub_self, zero_div]
      norm_num]
    rw [pyInt_intCast]
    decide
  have e2 : xMaxPx r (synthGeo minx maxy res)
      (fullExtentPolygon r minx maxy res) = (r.width : ℤ) - 1 := by
    unfold xMaxPx
    rw [show ((fullExtentPolygon r minx maxy res).maxx -
        (synthGeo minx maxy res).xOrigin) /
        (synthGeo minx maxy res).pixelWidth = (((r.width : ℕ) : ℤ) : ℚ) from by
      show (minx + (r.width : ℚ) * res - minx) / res = _
      rw [div_eq_iff hres.ne']
      push_cast
      ring]
    rw [pyInt_intCast]
    exact min_eq_left (by omega)
  have e3 : yMinPx (synthGeo minx maxy res)
      (fullExtentPolygon r minx maxy res) = 0 := by
    unfold yMinPx
    rw [habs]
    rw [show ((synthGeo minx maxy res).yOrigin -
        (fullExtentPolygon r minx maxy res).maxy) / res = ((0 : ℤ) : ℚ) from by
      show (maxy - maxy) / res = ((0 : ℤ) : ℚ)
      rw [sub_self, zero_div]
      norm_num]
    rw [pyInt_intCast]
    decide
  have e4 : yMaxPx r (synthGeo minx maxy res)
      (fullExtentPolygon r minx maxy res) = (r.height : ℤ) - 1 := by
    unfold yMaxPx
    rw [habs]
    rw [show ((synthGeo minx maxy res).yOrigin -
        (fullExtentPolygon r minx maxy res).miny) / res =
        (((r.height : ℕ) : ℤ) : ℚ) from by
      show (maxy - (maxy - (r.height : ℚ) * res)) / res = _
      rw [div_eq_iff hres.ne']
      push_cast
      ring]
    rw [pyInt_intCast]
    exact min_eq_left (by omega)
  have hpcY : ∀ y : ℤ, pixelCenterY (synthGeo minx maxy res) y =
      maxy - ((y : ℚ) + 1/2) * res := by
    intro y
    unfold pixelCenterY
    rw [habs]
    rfl
  have hcontAll : ∀ yx ∈ scannedPixels r (synthGeo minx maxy res)
      (fullExtentPolygon r minx maxy res),
      (fullExtentPolygon r minx maxy res).contains
        (pixelCenterX (synthGeo minx maxy res) yx.2)
        (pixelCenterY (synthGeo minx maxy res) yx.1) = true ∧
      (0 ≤ yx.1 ∧ yx.1 < (r.height : ℤ) ∧
        0 ≤ yx.2 ∧ yx.2 < (r.width : ℤ)) := by
    intro yx hyx
    have hb := scanned_in_bounds
      (show (yx.1, yx.2) ∈ scannedPixels r (synthGeo minx maxy res)
        (fullExtentPolygon r minx maxy res) from hyx)
    refine ⟨?_, hb⟩
    obtain ⟨hy0, hyh, hx0, hxw⟩ := hb
    have hxq0 : (0 : ℚ) ≤ (yx.2 : ℚ) := by exact_mod_cast hx0
    have hxqw : (yx.2 : ℚ) + 1 ≤ (r.width : ℚ) := by exact_mod_cast hxw
    have hyq0 : (0 : ℚ) ≤ (yx.1 : ℚ) := by exact_mod_cast hy0
    have hyqh : (yx.1 : ℚ) + 1 ≤ (r.height : ℚ) := by exact_mod_cast hyh
    rw [hpcY]
    show decide (minx < pixelCenterX (synthGeo minx maxy res) yx.2 ∧
      pixelCenterX (synthGeo minx maxy res) yx.2 <
        minx + (r.width : ℚ) * res ∧
      maxy - (r.height : ℚ) * res < maxy - ((yx.1 : ℚ) + 1/2) * res ∧
      maxy - ((yx.1 : ℚ) + 1/2) * res < maxy) = true
    rw [decide_eq_true_eq]
    unfold pixelCenterX
    show minx < minx + ((yx.2 : ℚ) + 1/2) * res ∧
      minx + ((yx.2 : ℚ) + 1/2) * res < minx + (r.width : ℚ) * res ∧
      maxy - (r.height : ℚ) * res < maxy - ((yx.1 : ℚ) + 1/2) * res ∧
      maxy - ((yx.1 : ℚ) + 1/2) * res < maxy
    refine ⟨?_, ?_, ?_, ?_⟩ <;> nlinarith
  have hzon : zonal_statistics sqrtO r (synthGeo minx maxy res)
      (fullExtentPolygon r minx maxy res) =
      some (statsOfValues sqrtO
        ((scannedPixels r (synthGeo minx maxy res)
          (fullExtentPolygon r minx maxy res)).map
          (fun yx => r.data yx.1.toNat yx.2.toNat))) := by
    unfold zonal_statistics
    rw [if_neg]
    · unfold collectValues
      rw [collect_full r (synthGeo minx maxy res)
        (fullExtentPolygon r minx maxy res) _ hcontAll]
      rfl
    · push_neg
      exact ⟨hres.ne', neg_ne_zero.2 hres.ne'⟩
  have hscan_eq : scannedPixels r (synthGeo minx maxy res)
      (fullExtentPolygon r minx maxy res) =
      ((List.range r.height).map (fun k : ℕ => (k : ℤ))).flatMap
        (fun y => ((List.range r.width).map (fun k : ℕ => (k : ℤ))).map
          (fun x => (y, x))) := by
    unfold scannedPixels
    rw [e1, e2, e3, e4, intRange_zero_toNat, intRange_zero_toNat]
  have hvals : (scannedPixels r (synthGeo minx maxy res)
      (fullExtentPolygon r minx maxy res)).map
        (fun yx => r.data yx.1.toNat yx.2.toNat) =
      (List.range r.height).flatMap
        (fun i => (List.range r.width).map (fun j => r.data i j)) := by
    rw [hscan_eq, List.map_flatMap, List.flatMap_map]
    refine congrArg _ (funext fun i => ?_)
    rw [List.map_map, List.map_map]
    refine List.map_congr_left (fun j _ => ?_)
    show r.data ((i : ℤ)).toNat ((j : ℤ)).toNat = r.data i j
    rw [Int.toNat_natCast, Int.toNat_natCast]
  rw [hvals] at hzon
  have hlen : ((List.range r.height).flatMap
      (fun i => (List.range r.width).map (fun j => r.data i j))).length =
      r.height * r.width := by
    rw [length_flatMap_const _ _ r.width
      (fun i _ => by rw [List.length_map, List.length_range])]
    rw [List.length_range]
  have hsum : ((List.range r.height).flatMap
      (fun i => (List.range r.width).map (fun j => r.data i j))).sum =
      rasterSum r := by
    rw [sum_flatMap_rows]
    rfl
  have hne : (List.range r.height).flatMap
      (fun i => (List.range r.width).map (fun j => r.data i j)) ≠ [] :=
    List.ne_nil_of_length_pos (by rw [hlen]; exact Nat.mul_pos hh hw)
  constructor
  · rw [hzon]
    show some ((statsOfValues sqrtO _).count) = _
    rw [statsOfValues_count, hlen]
  · rw [hzon]
    show ZonalStats.mean (statsOfValues sqrtO _) = _
    rw [statsOfValues_mean _ _ hne, hlen, hsum]

/-- Witness for C3: the 1×1 zero raster with unit resolution. -/
theorem zonal_stats_full_extent_witness :
    (zonal_statistics zeroSqrt w1r (synthGeo 0 1 1)
        (fullExtentPolygon w1r 0 1 1)).map ZonalStats.count = some 1 ∧
    (zonal_statistics zeroSqrt w1r (synthGeo 0 1 1)
        (fullExtentPolygon w1r 0 1 1)).bind ZonalStats.mean = some 0 := by
  obtain ⟨h1, h2⟩ := zonal_stats_full_extent zeroSqrt w1r 0 1 1 (by norm_num)
    (by unfold w1r; norm_num) (by unfold w1r; norm_num)
  constructor
  · rw [h1]
    rfl
  · rw [h2]
    norm_num [rasterSum, w1r, List.range_succ]

theorem fieldCorner_injective (bbox : BBox) (d : FieldDraw)
    (hx : bbox.minx < bbox.maxx) (hy : bbox.miny < bbox.maxy)
    (hs : 0 < d.sizeFrac) (hcs : d.cosA ^ 2 + d.sinA ^ 2 = 1)
    (o1 o2 : ℚ × ℚ) (hne : o1 ≠ o2) :
    fieldCorner bbox d o1 ≠ fieldCorner bbox d o2 := by
  intro heq
  have h1 := congrArg Prod.fst heq
  have h2 := congrArg Prod.snd heq
  unfold fieldCorner at h1 h2
  dsimp only at h1 h2
  have hW : 0 < d.sizeFrac * (bbox.maxx - bbox.minx) :=
    mul_pos hs (by linarith)
  have hH : 0 < d.sizeFrac * (bbox.maxy - bbox.miny) :=
    mul_pos hs (by linarith)
  have hx' : (o1.1 - o2.1) * (d.sizeFrac * (bbox.maxx - bbox.minx)) = 0 := by
    linear_combination d.cosA * h1 + d.sinA * h2 -
      ((o1.1 - o2.1) * (d.sizeFrac * (bbox.maxx - bbox.minx))) * hcs
  have hy' : (o1.2 - o2.2) * (d.sizeFrac * (bbox.maxy - bbox.miny)) = 0 := by
    linear_combination (-d.sinA) * h1 + d.cosA * h2 -
      ((o1.2 - o2.2) * (d.sizeFrac * (bbox.maxy - bbox.miny))) * hcs
  have hx0 : o1.1 = o2.1 := by
    rcases mul_eq_zero.1 hx' with h | h
    · linarith
    · exact absurd h hW.ne'
  have hy0 : o1.2 = o2.2 := by
    rcases mul_eq_zero.1 hy' with h | h
    · linarith
    · exact absurd h hH.ne'
  exact hne (Prod.ext hx0 hy0)

/-- C7: for every valid bounding box, the generator called with `count = 5`
(and the default size fractions) returns exactly 5 field records; every
record's polygon has 4 distinct corner vertices, its planting day lies
within the 2024-01-01..2024-04-30 window (offsets 0..120), and the
identifiers are `field1`, …, `field5` in order. -/
theorem field_polygons_five (draws : ℕ → FieldDraw) (bbox : BBox)
    (hx : bbox.minx < bbox.maxx) (hy : bbox.miny < bbox.maxy)
    (hdraws : ∀ i, i < 5 → 1/20 ≤ (draws i).sizeFrac ∧
      (draws i).sizeFrac ≤ 3/20 ∧
      (draws i).cosA ^ 2 + (draws i).sinA ^ 2 = 1 ∧
      (draws i).plantingDay ≤ dateRangeDays) :
    (generate_random_field_polygons draws bbox 5 (1/20) (3/20)).length = 5 ∧
    (∀ f ∈ generate_random_field_polygons draws bbox 5 (1/20) (3/20),
      f.corners.length = 4 ∧ f.corners.Nodup ∧
      f.plantingDay ≤ dateRangeDays) ∧
    (generate_random_field_polygons draws bbox 5 (1/20) (3/20)).map
      FieldRec.id = ["field1", "field2", "field3", "field4", "field5"] := by
  refine ⟨rfl, ?_, rfl⟩
  intro f hf
  obtain ⟨i, hi, rfl⟩ := List.exists_of_mem_map hf
  rw [List.mem_range] at hi
  obtain ⟨hs1, hs2, hcs, hpd⟩ := hdraws i hi
  have hs : 0 < (draws i).sizeFrac := by linarith
  have hinj := fieldCorner_injective bbox (draws i) hx hy hs hcs
  refine ⟨rfl, ?_, hpd⟩
  show (cornerOffsets.map (fieldCorner bbox (draws i))).Nodup
  rw [show cornerOffsets.map (fieldCorner bbox (draws i)) =
    [fieldCorner bbox (draws i) (-(1/2), -(1/2)),
     fieldCorner bbox (draws i) (1/2, -(1/2)),
     fieldCorner bbox (draws i) (1/2, 1/2),
     fieldCorner bbox (draws i) (-(1/2), 1/2)] from rfl]
  simp only [List.nodup_cons, List.mem_cons, List.not_mem_nil, or_false,
    List.nodup_nil, and_true, not_or, List.mem_singleton, not_false_eq_true]
  refine ⟨⟨hinj _ _ ?_, hinj _ _ ?_, hinj _ _ ?_⟩,
    ⟨hinj _ _ ?_, hinj _ _ ?_⟩, hinj _ _ ?_⟩ <;>
    norm_num [Prod.ext_iff]

/-- Witness for C7 at a concrete draw stream over the unit-square bbox. -/
theorem field_polygons_five_witness :
    (generate_random_field_polygons cdraws bbox6 5 (1/20) (3/20)).map
      FieldRec.id = ["field1", "field2", "field3", "field4", "field5"] :=
  (field_polygons_five cdraws bbox6
    (by show (0:ℚ) < 1; norm_num) (by show (0:ℚ) < 1; norm_num)
    (fun i _ => by
      refine ⟨?_, ?_, ?_, ?_⟩
      · show (1:ℚ)/20 ≤ 1/10
        norm_num
      · show (1:ℚ)/10 ≤ 3/20
        norm_num
      · show (1:ℚ)^2 + (0:ℚ)^2 = 1
        norm_num
      · show (0:ℕ) ≤ dateRangeDays
        exact Nat.zero_le _)).2.2
